import Mathlib

/-!
Shallow embedding of the resampling/classification core of the PvsNP
repository (`src/analysis/resampling.py`).

Modelling conventions:
* A pandas `DataFrame` of numeric data is a `DF`: a list of column names,
  a list of row labels (the pandas index, used only for label-based
  lookups such as `df[neuron]['d']`), and a list of rows, each row a list
  of rationals aligned positionally with `cols`.  `len(df.index)` is
  `df.rows.length`.
* Machine floats are modelled by `ℚ`; all arithmetic in the source is
  exact on the inputs the claims quantify over.
* Fallible Python code is modelled in `Except PyErr`; the error
  constructors name the Python/numpy exception that the corresponding
  expression raises (`1 / 0` → `zeroDivision`, missing column or missing
  row label → `keyError`, `.values[0]` on an empty column and
  `np.percentile` on an empty array → `indexError`, `np.percentile` with
  a percentile outside `[0, 100]` → `percentileOutOfRange`).
* The external collaborator `analysis_utils.compute_diff_rate` (the
  DifferenceRateFunction of the spec, not part of this repository's core)
  is a function parameter `diffRate`, already specialised to the two
  behavior labels; the randomness drawn by `pandas.sample(frac=1)` is a
  parameter `perms` giving, per iteration, the sampled row order.
-/

namespace Resampling

/-- Python/numpy runtime errors that the embedded code can raise. -/
inductive PyErr where
  | zeroDivision
  | keyError (key : String)
  | indexError
  | percentileOutOfRange
deriving DecidableEq, Repr

/-- A pandas DataFrame with numeric entries: named columns, row labels
(the index), and rows aligned positionally with `cols`. -/
structure DF where
  cols : List String
  rowLabels : List String
  rows : List (List ℚ)
deriving DecidableEq, Repr

/-- Position of column `n`, `none` when the column is absent
(a pandas `KeyError` at use sites). -/
def DF.colIdx (df : DF) (n : String) : Option ℕ :=
  df.cols.findIdx? (fun c => c == n)

/-- The column vector `df[n]` (total version; only used where the column
is known to be present). -/
def DF.col (df : DF) (n : String) : List ℚ :=
  match df.colIdx n with
  | some i => df.rows.map (fun r => r.getD i 0)
  | none => []

/-- The column vector `df[n]`, raising `KeyError` when absent. -/
def DF.colE (df : DF) (n : String) : Except PyErr (List ℚ) :=
  match df.colIdx n with
  | some _ => .ok (df.col n)
  | none => .error (.keyError n)

/-- `df[n].values[0]`: the first entry of column `n`, read positionally;
`IndexError` when the frame has no rows. -/
def DF.values0 (df : DF) (n : String) : Except PyErr ℚ := do
  let c ← df.colE n
  match c.head? with
  | some v => .ok v
  | none => .error .indexError

/-- `df[n][lab]`: label-based lookup in column `n` at the row whose index
label is `lab`; `KeyError` when the column or the label is absent. -/
def DF.atLabel (df : DF) (n lab : String) : Except PyErr ℚ :=
  match df.colIdx n with
  | none => .error (.keyError n)
  | some i =>
    match df.rowLabels.findIdx? (fun l => l == lab) with
    | none => .error (.keyError lab)
    | some j => .ok ((df.rows.getD j []).getD i 0)

/-- `compute_two_side_p_val(resampled_df, original_D_hat_df, neuron)`
(resampling.py line 23):
`(1 / len(resampled_df.index)) * len(resampled_df.loc[:, neuron].loc[abs(resampled_df[neuron]) >= abs(original_D_hat_df[neuron].values[0])])`.
Python evaluates `1 / len(...)` first, so an empty null table raises
`ZeroDivisionError` before any column access. -/
def compute_two_side_p_val (resampled_df original_D_hat_df : DF) (neuron : String) :
    Except PyErr ℚ :=
  if resampled_df.rows.length = 0 then .error .zeroDivision
  else do
    let col ← resampled_df.colE neuron
    let obs ← original_D_hat_df.values0 neuron
    pure ((1 / (resampled_df.rows.length : ℚ)) *
      ((col.filter (fun v => decide (|obs| ≤ |v|))).length : ℚ))

/-- `get_num_of_events(dataframe, neuron)` (resampling.py line 38):
`len(dataframe.loc[:, neuron][dataframe[neuron] != 0])`.  Total model:
every call site iterates over `dataframe.columns`, so the column is
always present. -/
def get_num_of_events (dataframe : DF) (neuron : String) : ℕ :=
  ((dataframe.col neuron).filter (fun v => decide (v ≠ 0))).length

/-- The Python idiom `if not neuron in classified_neurons:
classified_neurons[neuron] = v`, on an insertion-ordered dict modelled as
an association list. -/
def insertIfAbsent (d : List (String × String)) (k v : String) :
    List (String × String) :=
  if (d.lookup k).isSome then d else d ++ [(k, v)]

/-- One step of the event-count filter loop shared by both classifiers
(resampling.py lines 122-125 and 188-191). -/
def phaseStep (dataframe : DF) (threshold : ℕ) (d : List (String × String))
    (neuron : String) : List (String × String) :=
  if get_num_of_events dataframe neuron < threshold then
    insertIfAbsent d neuron "unclassified"
  else d

/-- The first loop of both classifiers: label every neuron of `dataframe`
with fewer than `threshold` nonzero samples as `"unclassified"`. -/
def eventFilterPhase (dataframe : DF) (threshold : ℕ) : List (String × String) :=
  dataframe.cols.foldl (phaseStep dataframe threshold) []

/-- One step of the second loop of `classify_neurons_non_parametrically`
(resampling.py lines 127-133): the p-value is computed before the
membership test, and the label is inserted only if the neuron is not
already classified. -/
def npStep (resampled_df real_diff_df : DF) (p_value : ℚ)
    (d : List (String × String)) (neuron : String) :
    Except PyErr (List (String × String)) := do
  let p ← compute_two_side_p_val resampled_df real_diff_df neuron
  if p ≤ p_value then pure (insertIfAbsent d neuron "selective")
  else pure (insertIfAbsent d neuron "not-selective")

/-- `classify_neurons_non_parametrically(dataframe, resampled_df,
real_diff_df, p_value=0.05, threshold=10)` (resampling.py lines 101-135). -/
def classify_neurons_non_parametrically (dataframe resampled_df real_diff_df : DF)
    (p_value : ℚ) (threshold : ℕ) : Except PyErr (List (String × String)) :=
  resampled_df.cols.foldlM (npStep resampled_df real_diff_df p_value)
    (eventFilterPhase dataframe threshold)

/-- Insertion into a sorted list of rationals. -/
def insertQ (x : ℚ) : List ℚ → List ℚ
  | [] => [x]
  | y :: ys => if x ≤ y then x :: y :: ys else y :: insertQ x ys

/-- Insertion sort, modelling numpy's internal sort in `np.percentile`. -/
def sortQ : List ℚ → List ℚ
  | [] => []
  | x :: xs => insertQ x (sortQ xs)

/-- `np.percentile(xs, q)` with the default linear interpolation:
position `q / 100 * (n - 1)` in the sorted data, interpolating between
the two neighbouring order statistics.  numpy raises on a percentile
outside `[0, 100]` and on an empty array. -/
def np_percentile (xs : List ℚ) (q : ℚ) : Except PyErr ℚ :=
  if q < 0 ∨ 100 < q then .error .percentileOutOfRange
  else if xs.length = 0 then .error .indexError
  else
    let s := sortQ xs
    let pos : ℚ := q / 100 * ((xs.length : ℚ) - 1)
    let i : ℕ := (⌊pos⌋).toNat
    let lo := s.getD i 0
    let hi := s.getD (i + 1) lo
    .ok (lo + (pos - (⌊pos⌋ : ℚ)) * (hi - lo))

/-- `two_tailed_neuron_classification(resampled_df, real_d_df, neuron,
behavior_name, high_tail, low_tail)` (resampling.py lines 161-166).  The
observed value is read label-based as `real_d_df[neuron]['d']`; the
`elif` branch is only evaluated when the high-tail test is false. -/
def two_tailed_neuron_classification (resampled_df real_d_df : DF)
    (neuron behavior_name : String) (high_tail low_tail : ℚ) :
    Except PyErr String := do
  let v ← real_d_df.atLabel neuron "d"
  let colH ← resampled_df.colE neuron
  let pHigh ← np_percentile colH high_tail
  if pHigh ≤ v then pure behavior_name
  else do
    let colL ← resampled_df.colE neuron
    let pLow ← np_percentile colL low_tail
    if v ≤ pLow then pure ("Non-" ++ behavior_name)
    else pure "Not-selective"

/-- One step of the second loop of `classify_neurons_parametrically`
(resampling.py lines 193-195): here the membership test comes first, so
`two_tailed_neuron_classification` is not invoked for neurons that are
already classified. -/
def pStep (resampled_df real_diff_df : DF) (behavior_name : String)
    (high_tail low_tail : ℚ) (d : List (String × String)) (neuron : String) :
    Except PyErr (List (String × String)) :=
  if (d.lookup neuron).isSome then pure d
  else do
    let lbl ← two_tailed_neuron_classification resampled_df real_diff_df neuron
      behavior_name high_tail low_tail
    pure (d ++ [(neuron, lbl)])

/-- `classify_neurons_parametrically(dataframe, resampled_df,
real_diff_df, behavior_name, high_tail, low_tail, threshold=10)`
(resampling.py lines 168-197). -/
def classify_neurons_parametrically (dataframe resampled_df real_diff_df : DF)
    (behavior_name : String) (high_tail low_tail : ℚ) (threshold : ℕ) :
    Except PyErr (List (String × String)) :=
  resampled_df.cols.foldlM
    (pStep resampled_df real_diff_df behavior_name high_tail low_tail)
    (eventFilterPhase dataframe threshold)

/-- The combined activity+behavior table of `shuffle_worker`, split into
the activity-column block `.loc[:, first_col:last_col]` (the only part
the worker mutates) and the remaining behavior columns. -/
structure Combined where
  activityRows : List (List ℚ)
  behaviorRows : List (List ℚ)
deriving DecidableEq, Repr

/-- Reindexing of rows by a sampled order, modelling
`block.sample(frac=1).reset_index(drop=True)`. -/
def permuteRows (idx : List ℕ) (rows : List (List ℚ)) : List (List ℚ) :=
  idx.map (fun i => rows.getD i [])

/-- The state of the activity block across the worker loop
(resampling.py line 96): the block is permuted *in place*, so iteration
`k` permutes the result of iteration `k - 1`, not the original block. -/
def iterTables (perms : ℕ → List ℕ) (t0 : List (List ℚ)) : ℕ → List (List ℚ)
  | 0 => t0
  | k + 1 => permuteRows (perms k) (iterTables perms t0 k)

/-- The combined table passed to `compute_diff_rate` at iteration `k`
(0-based) of the worker loop: the activity block after `k + 1` in-place
permutations, the behavior columns untouched. -/
def workerTable (perms : ℕ → List ℕ) (combined : Combined) (k : ℕ) : Combined :=
  { activityRows := iterTables perms combined.activityRows (k + 1),
    behaviorRows := combined.behaviorRows }

/-- `shuffle_worker` (resampling.py lines 73-99): the produced DataFrame
has the activity table's columns (line 93) and one row per iteration,
each row the value of the external `compute_diff_rate` on the
in-place-permuted combined table. -/
def shuffle_worker (diffRate : Combined → List ℚ) (perms : ℕ → List ℕ)
    (num_of_experiments : ℕ) (activityCols : List String) (combined : Combined) :
    DF :=
  { cols := activityCols, rowLabels := [],
    rows := (List.range num_of_experiments).map
      (fun k => diffRate (workerTable perms combined k)) }

/-- `shuffle(total_experiments, ...)` (resampling.py lines 40-71):
`experiments_per_worker = total_experiments // os.cpu_count()`; each of
the `cpu_count` worker processes owns an isolated copy of the combined
table and its own random stream `perms w`, and the orchestrator
vertically concatenates the `cpu_count` result frames. -/
def shuffle (total_experiments cpu_count : ℕ) (diffRate : Combined → List ℚ)
    (perms : ℕ → ℕ → List ℕ) (activityCols : List String) (combined : Combined) :
    DF :=
  { cols := activityCols, rowLabels := [],
    rows := (List.range cpu_count).flatMap
      (fun w => (shuffle_worker diffRate (perms w) (total_experiments / cpu_count)
        activityCols combined).rows) }

/-- Modelled from the spec (§4.1): the fresh-copy-per-iteration worker
that the spec prescribes — every iteration permutes a fresh logical copy
of the *original* activity block, so permutations never compound.  Used
only to compare against the code's `shuffle_worker`. -/
def shuffle_worker_fresh_copy (diffRate : Combined → List ℚ) (perms : ℕ → List ℕ)
    (num_of_experiments : ℕ) (activityCols : List String) (combined : Combined) :
    DF :=
  { cols := activityCols, rowLabels := [],
    rows := (List.range num_of_experiments).map
      (fun k => diffRate { activityRows := permuteRows (perms k) combined.activityRows,
                           behaviorRows := combined.behaviorRows }) }

/-! ### Basic lemmas about the embedded dictionary operations -/

theorem lookup_append_single (d : List (String × String)) (k v n : String) :
    ((d ++ [(k, v)]).lookup n) = (d.lookup n).or (if n = k then some v else none) := by
  induction d with
  | nil =>
    simp only [List.nil_append, List.lookup]
    cases hb : n == k with
    | false =>
      have hne : ¬ n = k := by simpa using hb
      simp [hne]
    | true =>
      have he : n = k := by simpa using hb
      simp [he]
  | cons p d ih =>
    simp only [List.cons_append, List.lookup]
    cases hb : n == p.1 <;> simp [hb, ih]

theorem lookup_insertIfAbsent (d : List (String × String)) (k v n : String) :
    ((insertIfAbsent d k v).lookup n) = (d.lookup n).or (if n = k then some v else none) := by
  unfold insertIfAbsent
  by_cases hk : (d.lookup k).isSome
  · rw [if_pos hk]
    by_cases hnk : n = k
    · subst hnk
      obtain ⟨w, hw⟩ := Option.isSome_iff_exists.mp hk
      simp [hw]
    · simp [hnk]
  · rw [if_neg hk, lookup_append_single]

theorem phaseFold_lookup (dataframe : DF) (threshold : ℕ) (n : String)
    (cols : List String) (acc : List (String × String)) :
    ((cols.foldl (phaseStep dataframe threshold) acc).lookup n) =
      (acc.lookup n).or
        (if n ∈ cols ∧ get_num_of_events dataframe n < threshold then
          some "unclassified" else none) := by
  induction cols generalizing acc with
  | nil => simp
  | cons c cs ih =>
    rw [List.foldl_cons, ih]
    unfold phaseStep
    by_cases hc : get_num_of_events dataframe c < threshold
    · rw [if_pos hc, lookup_insertIfAbsent, Option.or_assoc]
      congr 1
      by_cases hnc : n = c
      · subst hnc
        by_cases hcs : n ∈ cs <;> simp [hc, hcs]
      · simp [hnc, List.mem_cons]
    · rw [if_neg hc]
      congr 1
      by_cases hnc : n = c
      · subst hnc
        simp [hc]
      · simp [hnc, List.mem_cons]

theorem eventFilterPhase_lookup (dataframe : DF) (threshold : ℕ) (n : String) :
    ((eventFilterPhase dataframe threshold).lookup n) =
      (if n ∈ dataframe.cols ∧ get_num_of_events dataframe n < threshold then
        some "unclassified" else none) := by
  unfold eventFilterPhase
  rw [phaseFold_lookup]
  simp

/-! ### Column access lemmas -/

theorem DF.colIdx_isSome_of_mem {df : DF} {n : String} (h : n ∈ df.cols) :
    (df.colIdx n).isSome := by
  unfold DF.colIdx
  rw [List.findIdx?_isSome]
  simp only [List.any_eq_true]
  exact ⟨n, h, by simp⟩

theorem DF.colE_of_mem {df : DF} {n : String} (h : n ∈ df.cols) :
    df.colE n = .ok (df.col n) := by
  obtain ⟨i, hi⟩ := Option.isSome_iff_exists.mp (DF.colIdx_isSome_of_mem h)
  simp [DF.colE, hi]

theorem DF.col_eq_map_of_mem {df : DF} {n : String} (h : n ∈ df.cols) :
    ∃ i, df.colIdx n = some i ∧ df.col n = df.rows.map (fun r => r.getD i 0) := by
  obtain ⟨i, hi⟩ := Option.isSome_iff_exists.mp (DF.colIdx_isSome_of_mem h)
  exact ⟨i, hi, by simp [DF.col, hi]⟩

theorem DF.values0_of_mem {df : DF} {n : String} (h : n ∈ df.cols)
    (hr : df.rows ≠ []) : ∃ v, df.values0 n = .ok v := by
  obtain ⟨i, hi, hcol⟩ := DF.col_eq_map_of_mem h
  cases hrows : df.rows with
  | nil => exact absurd hrows hr
  | cons r rs =>
    refine ⟨r.getD i 0, ?_⟩
    simp [DF.values0, DF.colE_of_mem h, hcol, hrows, Bind.bind, Except.bind]

theorem DF.atLabel_of_label_not_mem {df : DF} {n lab : String} (hn : n ∈ df.cols)
    (hlab : lab ∉ df.rowLabels) : df.atLabel n lab = .error (.keyError lab) := by
  obtain ⟨i, hi⟩ := Option.isSome_iff_exists.mp (DF.colIdx_isSome_of_mem hn)
  have hnone : df.rowLabels.findIdx? (fun l => l == lab) = none := by
    rw [List.findIdx?_eq_none_iff]
    intro x hx
    simp only [beq_eq_false_iff_ne, ne_eq]
    intro hxl
    exact hlab (hxl ▸ hx)
  simp [DF.atLabel, hi, hnone]

/-! ### Except fold lemmas -/

theorem foldlM_except_nil {σ α : Type} (f : σ → α → Except PyErr σ) (s : σ) :
    List.foldlM f s [] = .ok s := rfl

theorem foldlM_except_cons {σ α : Type} (f : σ → α → Except PyErr σ) (s : σ)
    (a : α) (as : List α) :
    List.foldlM f s (a :: as) =
      (f s a).bind (fun s2 => List.foldlM f s2 as) := by
  cases h : f s a <;> simp [List.foldlM, h, Except.bind, Bind.bind]

theorem npStep_eq (resampled_df real_diff_df : DF) (p_value : ℚ)
    (d : List (String × String)) (n : String) :
    npStep resampled_df real_diff_df p_value d n =
      (compute_two_side_p_val resampled_df real_diff_df n).map
        (fun p => insertIfAbsent d n
          (if p ≤ p_value then "selective" else "not-selective")) := by
  unfold npStep
  cases h : compute_two_side_p_val resampled_df real_diff_df n with
  | error e => simp [h, Except.map, Except.bind, Bind.bind]
  | ok p =>
    by_cases hp : p ≤ p_value <;>
      simp [h, hp, Except.map, Except.bind, Bind.bind, Pure.pure, Except.pure]

theorem npFold_preserve (resampled_df real_diff_df : DF) (p_value : ℚ)
    (cols : List String) :
    ∀ (acc m : List (String × String)) (n v : String),
      acc.lookup n = some v →
      List.foldlM (npStep resampled_df real_diff_df p_value) acc cols = .ok m →
      m.lookup n = some v := by
  induction cols with
  | nil =>
    intro acc m n v h hf
    rw [foldlM_except_nil] at hf
    cases hf
    exact h
  | cons c cs ih =>
    intro acc m n v h hf
    rw [foldlM_except_cons, npStep_eq] at hf
    cases hp : compute_two_side_p_val resampled_df real_diff_df c with
    | error e => rw [hp] at hf; exact absurd hf (by simp [Except.map, Except.bind])
    | ok p =>
      rw [hp] at hf
      simp only [Except.map, Except.bind] at hf
      refine ih _ m n v ?_ hf
      rw [lookup_insertIfAbsent, h]
      rfl

theorem npFold_insert (resampled_df real_diff_df : DF) (p_value : ℚ)
    (cols : List String) :
    ∀ (acc m : List (String × String)) (n : String),
      n ∈ cols → acc.lookup n = none →
      List.foldlM (npStep resampled_df real_diff_df p_value) acc cols = .ok m →
      ∃ p, compute_two_side_p_val resampled_df real_diff_df n = .ok p ∧
        m.lookup n = some (if p ≤ p_value then "selective" else "not-selective") := by
  induction cols with
  | nil => intro acc m n hmem; exact absurd hmem (List.not_mem_nil n)
  | cons c cs ih =>
    intro acc m n hmem hnone hf
    rw [foldlM_except_cons, npStep_eq] at hf
    cases hp : compute_two_side_p_val resampled_df real_diff_df c with
    | error e => rw [hp] at hf; exact absurd hf (by simp [Except.map, Except.bind])
    | ok p =>
      rw [hp] at hf
      simp only [Except.map, Except.bind] at hf
      by_cases hnc : n = c
      · subst hnc
        refine ⟨p, hp, ?_⟩
        refine npFold_preserve resampled_df real_diff_df p_value cs _ m n _ ?_ hf
        rw [lookup_insertIfAbsent, hnone]
        simp
      · rcases List.mem_cons.mp hmem with h | h
        · exact absurd h hnc
        · refine ih _ m n h ?_ hf
          rw [lookup_insertIfAbsent, hnone]
          simp [hnc]

theorem pStep_of_isSome (resampled_df real_diff_df : DF) (behavior_name : String)
    (high_tail low_tail : ℚ) (d : List (String × String)) (n : String)
    (h : (d.lookup n).isSome) :
    pStep resampled_df real_diff_df behavior_name high_tail low_tail d n = .ok d := by
  simp [pStep, h, Pure.pure, Except.pure]

theorem pStep_of_none (resampled_df real_diff_df : DF) (behavior_name : String)
    (high_tail low_tail : ℚ) (d : List (String × String)) (n : String)
    (h : d.lookup n = none) :
    pStep resampled_df real_diff_df behavior_name high_tail low_tail d n =
      (two_tailed_neuron_classification resampled_df real_diff_df n behavior_name
        high_tail low_tail).map (fun lbl => d ++ [(n, lbl)]) := by
  unfold pStep
  rw [if_neg (by simp [h])]
  cases ht : two_tailed_neuron_classification resampled_df real_diff_df n
      behavior_name high_tail low_tail <;>
    simp [ht, Except.map, Except.bind, Bind.bind, Pure.pure, Except.pure]

theorem pFold_preserve (resampled_df real_diff_df : DF) (behavior_name : String)
    (high_tail low_tail : ℚ) (cols : List String) :
    ∀ (acc m : List (String × String)) (n v : String),
      acc.lookup n = some v →
      List.foldlM (pStep resampled_df real_diff_df behavior_name high_tail low_tail)
        acc cols = .ok m →
      m.lookup n = some v := by
  induction cols with
  | nil =>
    intro acc m n v h hf
    rw [foldlM_except_nil] at hf
    cases hf
    exact h
  | cons c cs ih =>
    intro acc m n v h hf
    rw [foldlM_except_cons] at hf
    by_cases hc : (acc.lookup c).isSome
    · rw [pStep_of_isSome _ _ _ _ _ _ _ hc] at hf
      exact ih acc m n v h hf
    · rw [pStep_of_none _ _ _ _ _ _ _ (Option.not_isSome_iff_eq_none.mp hc)] at hf
      cases ht : two_tailed_neuron_classification resampled_df real_diff_df c
          behavior_name high_tail low_tail with
      | error e => rw [ht] at hf; exact absurd hf (by simp [Except.map, Except.bind])
      | ok lbl =>
        rw [ht] at hf
        simp only [Except.map, Except.bind] at hf
        refine ih _ m n v ?_ hf
        rw [lookup_append_single, h]
        rfl

theorem pFold_insert (resampled_df real_diff_df : DF) (behavior_name : String)
    (high_tail low_tail : ℚ) (cols : List String) :
    ∀ (acc m : List (String × String)) (n : String),
      n ∈ cols → acc.lookup n = none →
      List.foldlM (pStep resampled_df real_diff_df behavior_name high_tail low_tail)
        acc cols = .ok m →
      ∃ lbl, two_tailed_neuron_classification resampled_df real_diff_df n
          behavior_name high_tail low_tail = .ok lbl ∧
        m.lookup n = some lbl := by
  induction cols with
  | nil => intro acc m n hmem; exact absurd hmem (List.not_mem_nil n)
  | cons c cs ih =>
    intro acc m n hmem hnone hf
    rw [foldlM_except_cons] at hf
    by_cases hnc : n = c
    · subst hnc
      rw [pStep_of_none _ _ _ _ _ _ _ hnone] at hf
      cases ht : two_tailed_neuron_classification resampled_df real_diff_df n
          behavior_name high_tail low_tail with
      | error e => rw [ht] at hf; exact absurd hf (by simp [Except.map, Except.bind])
      | ok lbl =>
        rw [ht] at hf
        simp only [Except.map, Except.bind] at hf
        refine ⟨lbl, rfl, ?_⟩
        refine pFold_preserve resampled_df real_diff_df behavior_name high_tail
          low_tail cs _ m n _ ?_ hf
        rw [lookup_append_single, hnone]
        simp
    · rcases List.mem_cons.mp hmem with h | h
      · exact absurd h hnc
      · by_cases hc : (acc.lookup c).isSome
        · rw [pStep_of_isSome _ _ _ _ _ _ _ hc] at hf
          exact ih acc m n h hnone hf
        · rw [pStep_of_none _ _ _ _ _ _ _ (Option.not_isSome_iff_eq_none.mp hc)] at hf
          cases ht : two_tailed_neuron_classification resampled_df real_diff_df c
              behavior_name high_tail low_tail with
          | error e => rw [ht] at hf; exact absurd hf (by simp [Except.map, Except.bind])
          | ok lbl =>
            rw [ht] at hf
            simp only [Except.map, Except.bind] at hf
            refine ih _ m n h ?_ hf
            rw [lookup_append_single, hnone]
            simp [hnc]

theorem pFold_allSome (resampled_df real_diff_df : DF) (behavior_name : String)
    (high_tail low_tail : ℚ) (cols : List String) (acc : List (String × String))
    (h : ∀ c ∈ cols, (acc.lookup c).isSome) :
    List.foldlM (pStep resampled_df real_diff_df behavior_name high_tail low_tail)
      acc cols = .ok acc := by
  induction cols with
  | nil => exact foldlM_except_nil _ _
  | cons c cs ih =>
    rw [foldlM_except_cons, pStep_of_isSome _ _ _ _ _ _ _ (h c (by simp))]
    exact ih (fun x hx => h x (List.mem_cons_of_mem c hx))

theorem pFold_error (resampled_df real_diff_df : DF) (behavior_name : String)
    (high_tail low_tail : ℚ) (e : PyErr) (cols : List String) :
    ∀ (acc : List (String × String)),
      (∀ c ∈ cols, acc.lookup c = none →
        two_tailed_neuron_classification resampled_df real_diff_df c behavior_name
          high_tail low_tail = .error e) →
      (∃ c ∈ cols, acc.lookup c = none) →
      List.foldlM (pStep resampled_df real_diff_df behavior_name high_tail low_tail)
        acc cols = .error e := by
  induction cols with
  | nil => rintro acc - ⟨c, hc, -⟩; exact absurd hc (List.not_mem_nil c)
  | cons c cs ih =>
    rintro acc hall ⟨w, hw, hwnone⟩
    rw [foldlM_except_cons]
    by_cases hc : (acc.lookup c).isSome
    · rw [pStep_of_isSome _ _ _ _ _ _ _ hc]
      have hwc : w ≠ c := by
        intro h
        rw [h] at hwnone
        rw [hwnone] at hc
        simp at hc
      refine ih acc (fun x hx hxn => hall x (List.mem_cons_of_mem c hx) hxn) ?_
      exact ⟨w, (List.mem_cons.mp hw).resolve_left hwc, hwnone⟩
    · have hcn := Option.not_isSome_iff_eq_none.mp hc
      rw [pStep_of_none _ _ _ _ _ _ _ hcn, hall c (by simp) hcn]
      simp [Except.map, Except.bind]

/-! ### Sorting and percentile lemmas -/

theorem length_insertQ (x : ℚ) (l : List ℚ) : (insertQ x l).length = l.length + 1 := by
  induction l with
  | nil => rfl
  | cons y ys ih =>
    unfold insertQ
    split
    · simp
    · simp [ih]

theorem length_sortQ (l : List ℚ) : (sortQ l).length = l.length := by
  induction l with
  | nil => rfl
  | cons x xs ih => simp [sortQ, length_insertQ, ih]

theorem mem_insertQ {y x : ℚ} {l : List ℚ} (h : y ∈ insertQ x l) : y = x ∨ y ∈ l := by
  induction l with
  | nil =>
    simp only [insertQ, List.mem_singleton] at h
    exact Or.inl h
  | cons z zs ih =>
    unfold insertQ at h
    split at h
    · simpa using h
    · rcases List.mem_cons.mp h with h | h
      · exact Or.inr (by simp [h])
      · rcases ih h with h | h
        · exact Or.inl h
        · exact Or.inr (List.mem_cons_of_mem z h)

theorem mem_sortQ {x : ℚ} {l : List ℚ} (h : x ∈ sortQ l) : x ∈ l := by
  induction l with
  | nil => simp [sortQ] at h
  | cons y ys ih =>
    rcases mem_insertQ (l := sortQ ys) (by simpa [sortQ] using h) with h2 | h2
    · simp [h2]
    · exact List.mem_cons_of_mem y (ih h2)

theorem getD_eq_of_forall {l : List ℚ} {c : ℚ} (hc : ∀ x ∈ l, x = c) {i : ℕ}
    (hi : i < l.length) (d : ℚ) : l.getD i d = c := by
  rw [List.getD_eq_getElem?_getD, List.getElem?_eq_getElem hi]
  exact hc _ (List.getElem_mem hi)

/-- `np.percentile` of a constant-valued non-empty column is that constant:
no error and no NaN. -/
theorem np_percentile_const (xs : List ℚ) (c q : ℚ) (hne : xs ≠ [])
    (hc : ∀ x ∈ xs, x = c) (h0 : 0 ≤ q) (h1 : q ≤ 100) :
    np_percentile xs q = .ok c := by
  have hq : ¬ (q < 0 ∨ 100 < q) := by push_neg; exact ⟨h0, h1⟩
  have hlen : xs.length ≠ 0 := by simpa [List.length_eq_zero] using hne
  unfold np_percentile
  rw [if_neg hq, if_neg hlen]
  have hn1 : 1 ≤ xs.length := Nat.one_le_iff_ne_zero.mpr hlen
  have hsc : ∀ x ∈ sortQ xs, x = c := fun x hx => hc x (mem_sortQ hx)
  have hb : (0:ℚ) ≤ (xs.length : ℚ) - 1 := by
    have : (1:ℚ) ≤ (xs.length : ℚ) := by exact_mod_cast hn1
    linarith
  have hq1 : q / 100 ≤ 1 := (div_le_one (by norm_num)).mpr h1
  have hposle : q / 100 * ((xs.length : ℚ) - 1) ≤ (xs.length : ℚ) - 1 :=
    mul_le_of_le_one_left hb hq1
  have hfloor : ⌊q / 100 * ((xs.length : ℚ) - 1)⌋ ≤ (xs.length : ℤ) - 1 := by
    calc ⌊q / 100 * ((xs.length : ℚ) - 1)⌋ ≤ ⌊(xs.length : ℚ) - 1⌋ :=
          Int.floor_le_floor hposle
      _ = (xs.length : ℤ) - 1 := by
          rw [show ((xs.length : ℚ) - 1) = (((xs.length : ℤ) - 1 : ℤ) : ℚ) by push_cast; ring,
            Int.floor_intCast]
  have hilt : (⌊q / 100 * ((xs.length : ℚ) - 1)⌋).toNat < xs.length := by omega
  have hilt2 : (⌊q / 100 * ((xs.length : ℚ) - 1)⌋).toNat < (sortQ xs).length := by
    rwa [length_sortQ]
  have hlo : (sortQ xs).getD (⌊q / 100 * ((xs.length : ℚ) - 1)⌋).toNat 0 = c :=
    getD_eq_of_forall hsc hilt2 0
  have hhi : ∀ d : ℚ, (∀ x ∈ sortQ xs, x = c) → d = c →
      (sortQ xs).getD ((⌊q / 100 * ((xs.length : ℚ) - 1)⌋).toNat + 1) d = c := by
    intro d hall hd
    by_cases h : (⌊q / 100 * ((xs.length : ℚ) - 1)⌋).toNat + 1 < (sortQ xs).length
    · exact getD_eq_of_forall hall h d
    · rw [List.getD_eq_getElem?_getD, List.getElem?_eq_none (by omega)]
      simpa using hd
  simp only [hlo]
  rw [hhi c hsc rfl]
  simp

/-! ### Characterisation of the p-value computation -/

theorem compute_two_side_p_val_spec (resampled_df original_D_hat_df : DF)
    (neuron : String) (v : ℚ) (h0 : resampled_df.rows ≠ [])
    (h1 : neuron ∈ resampled_df.cols)
    (hv : original_D_hat_df.values0 neuron = .ok v) :
    compute_two_side_p_val resampled_df original_D_hat_df neuron =
      .ok (((((resampled_df.col neuron).filter
          (fun x => decide (|v| ≤ |x|))).length : ℚ)) /
        (resampled_df.rows.length : ℚ)) := by
  unfold compute_two_side_p_val
  rw [if_neg (by simpa [List.length_eq_zero] using h0), DF.colE_of_mem h1, hv]
  simp [Bind.bind, Except.bind, Pure.pure, Except.pure, inv_mul_eq_div]

/-! ### Characterisation of the two-tailed classification -/

theorem two_tailed_spec (resampled_df real_d_df : DF) (neuron behavior_name : String)
    (high_tail low_tail : ℚ) (v pHigh : ℚ)
    (hv : real_d_df.atLabel neuron "d" = .ok v)
    (hc : neuron ∈ resampled_df.cols)
    (hpH : np_percentile (resampled_df.col neuron) high_tail = .ok pHigh) :
    two_tailed_neuron_classification resampled_df real_d_df neuron behavior_name
        high_tail low_tail =
      if pHigh ≤ v then .ok behavior_name
      else (np_percentile (resampled_df.col neuron) low_tail).map
        (fun pLow => if v ≤ pLow then "Non-" ++ behavior_name else "Not-selective") := by
  unfold two_tailed_neuron_classification
  rw [hv, DF.colE_of_mem hc]
  by_cases hcmp : pHigh ≤ v
  · simp [Bind.bind, Except.bind, hpH, hcmp, Pure.pure, Except.pure]
  · cases hpL : np_percentile (resampled_df.col neuron) low_tail with
    | error e =>
      simp [Bind.bind, Except.bind, hpH, hpL, hcmp, Except.map]
    | ok pLow =>
      by_cases hlow : v ≤ pLow <;>
        simp [Bind.bind, Except.bind, hpH, hpL, hcmp, hlow, Except.map,
          Pure.pure, Except.pure]

theorem two_tailed_missing_d_label (resampled_df real_d_df : DF)
    (neuron behavior_name : String) (high_tail low_tail : ℚ)
    (hn : neuron ∈ real_d_df.cols) (hd : "d" ∉ real_d_df.rowLabels) :
    two_tailed_neuron_classification resampled_df real_d_df neuron behavior_name
      high_tail low_tail = .error (.keyError "d") := by
  unfold two_tailed_neuron_classification
  rw [DF.atLabel_of_label_not_mem hn hd]
  rfl

theorem two_tailed_empty_col (resampled_df real_d_df : DF)
    (neuron behavior_name : String) (high_tail low_tail : ℚ) (v : ℚ)
    (hv : real_d_df.atLabel neuron "d" = .ok v)
    (hc : neuron ∈ resampled_df.cols)
    (hcol : resampled_df.col neuron = []) :
    ∃ e, two_tailed_neuron_classification resampled_df real_d_df neuron
      behavior_name high_tail low_tail = .error e := by
  unfold two_tailed_neuron_classification
  rw [hv, DF.colE_of_mem hc, hcol]
  unfold np_percentile
  by_cases hq : high_tail < 0 ∨ 100 < high_tail
  · exact ⟨.percentileOutOfRange, by simp [hq, Bind.bind, Except.bind]⟩
  · exact ⟨.indexError, by simp [hq, Bind.bind, Except.bind]⟩

/-! ### Shuffle engine lemmas -/

theorem shuffle_worker_rows_length (diffRate : Combined → List ℚ)
    (perms : ℕ → List ℕ) (num_of_experiments : ℕ) (activityCols : List String)
    (combined : Combined) :
    (shuffle_worker diffRate perms num_of_experiments activityCols combined).rows.length =
      num_of_experiments := by
  simp [shuffle_worker]

theorem length_flatMap_const {α β : Type} (c : ℕ) (f : α → List β)
    (h : ∀ a, (f a).length = c) (l : List α) :
    (l.flatMap f).length = l.length * c := by
  induction l with
  | nil => simp
  | cons a l ih =>
    rw [List.flatMap_cons, List.length_append, h, ih, List.length_cons,
      Nat.succ_mul, Nat.add_comm]

theorem shuffle_rows_length (total_experiments cpu_count : ℕ)
    (diffRate : Combined → List ℚ) (perms : ℕ → ℕ → List ℕ)
    (activityCols : List String) (combined : Combined) :
    (shuffle total_experiments cpu_count diffRate perms activityCols combined).rows.length =
      cpu_count * (total_experiments / cpu_count) := by
  have h := length_flatMap_const (total_experiments / cpu_count)
    (fun w => (shuffle_worker diffRate (perms w) (total_experiments / cpu_count)
      activityCols combined).rows)
    (fun w => shuffle_worker_rows_length _ _ _ _ _) (List.range cpu_count)
  simpa [shuffle] using h

theorem map_getD_range {α : Type} (l : List α) (d : α) :
    (List.range l.length).map (fun i => l.getD i d) = l := by
  induction l with
  | nil => rfl
  | cons a l ih =>
    rw [List.length_cons, List.range_succ_eq_map, List.map_cons, List.map_map]
    refine congrArg₂ List.cons (List.getD_cons_zero) ?_
    rw [show ((fun i => (a :: l).getD i d) ∘ Nat.succ) = (fun i => l.getD i d) by
      funext i; simp [List.getD_cons_succ]]
    exact ih

theorem permuteRows_perm (idx : List ℕ) (rows : List (List ℚ))
    (h : idx.Perm (List.range rows.length)) : (permuteRows idx rows).Perm rows := by
  have hm := h.map (fun i => rows.getD i [])
  rwa [map_getD_range] at hm

theorem iterTables_perm (perms : ℕ → List ℕ) (t0 : List (List ℚ))
    (h : ∀ k, (perms k).Perm (List.range t0.length)) (k : ℕ) :
    (iterTables perms t0 k).Perm t0 := by
  induction k with
  | zero => exact List.Perm.refl t0
  | succ k ih =>
    have hlen : (iterTables perms t0 k).length = t0.length := ih.length_eq
    exact (permuteRows_perm (perms k) (iterTables perms t0 k)
      (hlen ▸ h k)).trans ih

/-! ### Claim theorems -/

/-- C1: for every non-empty null-distribution table and every neuron column
present in it, `compute_two_side_p_val resampled_df original_D_hat_df neuron`
returns the count of null values `x` with `|x| >= |observed|` (ties counted
toward significance via the inclusive `>=`) divided by the row count of the
null table, where the observed value is the first entry of the neuron's
column in the one-row observed table. -/
theorem claim_C1_two_sided_p_value_formula (resampled_df original_D_hat_df : DF)
    (neuron : String) (v : ℚ) (h0 : resampled_df.rows ≠ [])
    (h1 : neuron ∈ resampled_df.cols)
    (hv : original_D_hat_df.values0 neuron = .ok v) :
    compute_two_side_p_val resampled_df original_D_hat_df neuron =
      .ok ((((resampled_df.col neuron).filter
          (fun x => decide (|v| ≤ |x|))).length : ℚ) /
        (resampled_df.rows.length : ℚ)) :=
  compute_two_side_p_val_spec resampled_df original_D_hat_df neuron v h0 h1 hv

/-- Witness for C1: on the null column `[1, 2, -5]` with observed value `3`,
exactly one null value satisfies `|x| >= 3`, so the p-value is `1/3`. -/
theorem claim_C1_witness :
    compute_two_side_p_val ⟨["a"], [], [[1], [2], [-5]]⟩ ⟨["a"], ["d"], [[3]]⟩ "a" =
      .ok (1 / 3) := by
  have h := claim_C1_two_sided_p_value_formula ⟨["a"], [], [[1], [2], [-5]]⟩
    ⟨["a"], ["d"], [[3]]⟩ "a" 3 (by simp) (by simp)
    (by norm_num [DF.values0, DF.colE, DF.colIdx, DF.col, List.findIdx?,
      Bind.bind, Except.bind])
  rw [h]
  norm_num [DF.col, DF.colIdx, List.findIdx?, List.filter]

/-- C2: `shuffle` with requested resample count `R >= 1` and `W >= 1` workers
returns a null table with exactly `W * (R / W)` rows (each worker executes
`R / W` iterations, the remainder `R mod W` is silently dropped) whose
columns are exactly the activity table's neuron columns. -/
theorem claim_C2_shuffle_row_count_law (total_experiments cpu_count : ℕ)
    (_hR : 1 ≤ total_experiments) (_hW : 1 ≤ cpu_count)
    (diffRate : Combined → List ℚ) (perms : ℕ → ℕ → List ℕ)
    (activityCols : List String) (combined : Combined) :
    (shuffle total_experiments cpu_count diffRate perms activityCols
        combined).rows.length = cpu_count * (total_experiments / cpu_count) ∧
    (shuffle total_experiments cpu_count diffRate perms activityCols
        combined).cols = activityCols :=
  ⟨shuffle_rows_length total_experiments cpu_count diffRate perms activityCols
    combined, rfl⟩

/-- Witness for C2: requesting `R = 10` resamples on `W = 4` workers yields
`8` rows, not `10`. -/
theorem claim_C2_witness :
    (shuffle 10 4 (fun c => c.activityRows.getD 0 []) (fun _ _ => [0]) ["n"]
        ⟨[[1]], [[2]]⟩).rows.length = 8 ∧
    (shuffle 10 4 (fun c => c.activityRows.getD 0 []) (fun _ _ => [0]) ["n"]
        ⟨[[1]], [[2]]⟩).cols = ["n"] := by
  have h := claim_C2_shuffle_row_count_law 10 4 (by norm_num) (by norm_num)
    (fun c => c.activityRows.getD 0 []) (fun _ _ => [0]) ["n"] ⟨[[1]], [[2]]⟩
  exact ⟨h.1.trans (by norm_num), h.2⟩

/-- C3 counterexample: neuron "a" fails the event-count filter (0 nonzero
samples, threshold 10), and the null table is empty.  Under the claim the
filtered neuron is excluded from any further statistical evaluation, so the
call should return the map `[("a", "unclassified")]`; the code still computes
the p-value for "a" and raises `ZeroDivisionError`, producing no output map
at all. -/
theorem claim_C3_counterexample :
    classify_neurons_non_parametrically ⟨["a"], [], [[0]]⟩ ⟨["a"], [], []⟩
      ⟨["a"], ["d"], [[5]]⟩ (5 / 100) 10 = .error .zeroDivision := by
  norm_num [classify_neurons_non_parametrically, eventFilterPhase, phaseStep,
    get_num_of_events, insertIfAbsent, npStep, compute_two_side_p_val, DF.col,
    DF.colIdx, List.findIdx?, List.foldlM, Bind.bind, Except.bind]

/-- C3 (amended): in both strategies every neuron of the activity table with
fewer than `threshold` nonzero samples receives the label "unclassified" in
any output map, regardless of its p-value or percentile position (the filter
label takes precedence); in the parametric strategy filtered neurons are
additionally excluded from statistical evaluation (when every neuron is
filtered the call succeeds untouched by the statistics), but in the
non-parametric strategy the p-value is still computed for every neuron of the
null table and only its result is discarded — its errors still propagate
(see the counterexample). -/
theorem claim_C3_event_filter_precedence (dataframe resampled_df real_diff_df : DF)
    (p_value : ℚ) (behavior_name : String) (high_tail low_tail : ℚ)
    (threshold : ℕ) (n : String) (hn : n ∈ dataframe.cols)
    (hev : get_num_of_events dataframe n < threshold) :
    (∀ m, classify_neurons_non_parametrically dataframe resampled_df real_diff_df
        p_value threshold = .ok m → m.lookup n = some "unclassified") ∧
    (∀ m, classify_neurons_parametrically dataframe resampled_df real_diff_df
        behavior_name high_tail low_tail threshold = .ok m →
      m.lookup n = some "unclassified") ∧
    ((∀ c ∈ resampled_df.cols, c ∈ dataframe.cols ∧
        get_num_of_events dataframe c < threshold) →
      classify_neurons_parametrically dataframe resampled_df real_diff_df
        behavior_name high_tail low_tail threshold =
          .ok (eventFilterPhase dataframe threshold)) := by
  have hphase : (eventFilterPhase dataframe threshold).lookup n =
      some "unclassified" := by
    rw [eventFilterPhase_lookup, if_pos ⟨hn, hev⟩]
  refine ⟨?_, ?_, ?_⟩
  · intro m hm
    unfold classify_neurons_non_parametrically at hm
    exact npFold_preserve resampled_df real_diff_df p_value resampled_df.cols
      _ m n _ hphase hm
  · intro m hm
    unfold classify_neurons_parametrically at hm
    exact pFold_preserve resampled_df real_diff_df behavior_name high_tail
      low_tail resampled_df.cols _ m n _ hphase hm
  · intro hall
    unfold classify_neurons_parametrically
    apply pFold_allSome
    intro c hc
    rw [eventFilterPhase_lookup, if_pos (hall c hc)]
    rfl

/-- Witness for C3 (amended): a single all-zero neuron with an empty null
table is filtered, and the parametric call succeeds with the filter map
even though the percentile statistics would fail. -/
theorem claim_C3_witness :
    classify_neurons_parametrically ⟨["a"], [], [[0]]⟩ ⟨["a"], [], []⟩
      ⟨["a"], ["d"], [[5]]⟩ "B" 95 5 10 = .ok [("a", "unclassified")] := by
  have h := (claim_C3_event_filter_precedence ⟨["a"], [], [[0]]⟩ ⟨["a"], [], []⟩
    ⟨["a"], ["d"], [[5]]⟩ (5 / 100) "B" 95 5 10 "a" (by simp)
    (by norm_num [get_num_of_events, DF.col, DF.colIdx, List.findIdx?])).2.2
  rw [h (by
    intro c hc
    simp only [List.mem_singleton] at hc
    subst hc
    exact ⟨by simp, by norm_num [get_num_of_events, DF.col, DF.colIdx,
      List.findIdx?]⟩)]
  norm_num [eventFilterPhase, phaseStep, get_num_of_events, insertIfAbsent,
    DF.col, DF.colIdx, List.findIdx?]

/-- C7: `compute_two_side_p_val` on a null table with zero rows fails with
the division-by-zero error from `1 / len(resampled_df.index)` (the spec's
`InvalidInput` category) and never returns a numeric value. -/
theorem claim_C7_empty_null_table_errors (resampled_df original_D_hat_df : DF)
    (neuron : String) (h : resampled_df.rows = []) :
    compute_two_side_p_val resampled_df original_D_hat_df neuron =
      .error .zeroDivision ∧
    ∀ q : ℚ, compute_two_side_p_val resampled_df original_D_hat_df neuron ≠
      .ok q := by
  have he : compute_two_side_p_val resampled_df original_D_hat_df neuron =
      .error .zeroDivision := by
    unfold compute_two_side_p_val
    rw [if_pos (by simp [h])]
  exact ⟨he, fun q hq => by rw [he] at hq; exact Except.noConfusion hq⟩

/-- Witness for C7: the empty null table errors out. -/
theorem claim_C7_witness :
    compute_two_side_p_val ⟨["a"], [], []⟩ ⟨["a"], ["d"], [[3]]⟩ "a" =
      .error .zeroDivision :=
  (claim_C7_empty_null_table_errors ⟨["a"], [], []⟩ ⟨["a"], ["d"], [[3]]⟩ "a"
    rfl).1

/-- C4: every neuron of the null table that is not removed by the
event-count filter receives exactly one of the two labels: "selective" when
its two-sided empirical p-value is at most `p_value`, "not-selective"
otherwise — the non-parametric output is binary-exhaustive for non-filtered
neurons. -/
theorem claim_C4_nonparametric_binary (dataframe resampled_df real_diff_df : DF)
    (p_value : ℚ) (threshold : ℕ) (n : String) (m : List (String × String))
    (p : ℚ) (hn : n ∈ resampled_df.cols)
    (hfilt : ¬ (n ∈ dataframe.cols ∧ get_num_of_events dataframe n < threshold))
    (hok : classify_neurons_non_parametrically dataframe resampled_df real_diff_df
      p_value threshold = .ok m)
    (hp : compute_two_side_p_val resampled_df real_diff_df n = .ok p) :
    m.lookup n = some (if p ≤ p_value then "selective" else "not-selective") ∧
    (m.lookup n = some "selective" ∨ m.lookup n = some "not-selective") := by
  have hnone : (eventFilterPhase dataframe threshold).lookup n = none := by
    rw [eventFilterPhase_lookup, if_neg hfilt]
  unfold classify_neurons_non_parametrically at hok
  obtain ⟨p2, hp2, hlook⟩ := npFold_insert resampled_df real_diff_df p_value
    resampled_df.cols _ m n hn hnone hok
  rw [hp] at hp2
  injection hp2 with hp2
  subst hp2
  refine ⟨hlook, ?_⟩
  by_cases hc : p ≤ p_value
  · rw [if_pos hc] at hlook
    exact Or.inl hlook
  · rw [if_neg hc] at hlook
    exact Or.inr hlook

/-- Witness for C4: with null column `[1, 2, -5]` and observed value `3` the
p-value is `1/3 > 0.05`, so the unfiltered neuron "a" is labeled
"not-selective". -/
theorem claim_C4_witness :
    List.lookup "a" [("a", "not-selective")] =
      some (if (1 : ℚ) / 3 ≤ 5 / 100 then "selective" else "not-selective") ∧
    (List.lookup "a" [("a", "not-selective")] = some "selective" ∨
      List.lookup "a" [("a", "not-selective")] = some "not-selective") :=
  claim_C4_nonparametric_binary ⟨["a"], [], [[1]]⟩ ⟨["a"], [], [[1], [2], [-5]]⟩
    ⟨["a"], ["d"], [[3]]⟩ (5 / 100) 0 "a" [("a", "not-selective")] (1 / 3)
    (by simp) (by simp)
    (by norm_num [classify_neurons_non_parametrically, eventFilterPhase,
      phaseStep, get_num_of_events, insertIfAbsent, npStep,
      compute_two_side_p_val, DF.values0, DF.colE, DF.col, DF.colIdx,
      List.findIdx?, List.foldlM, List.filter, List.lookup, Bind.bind,
      Except.bind, Pure.pure, Except.pure])
    (by norm_num [compute_two_side_p_val, DF.values0, DF.colE, DF.col,
      DF.colIdx, List.findIdx?, List.filter, Bind.bind, Except.bind,
      Pure.pure, Except.pure])

/-- C5: every neuron of the null table that is not removed by the
event-count filter receives exactly one of the three labels
`behavior_name`, `"Non-" ++ behavior_name`, `"Not-selective"`, evaluated in
priority order with inclusive boundaries: `behavior_name` when the observed
value is at least the `high_tail`-th percentile of the neuron's null column,
else the "Non-" label when it is at most the `low_tail`-th percentile, else
"Not-selective"; if misconfigured tails make both conditions hold, the
high-tail label wins because the high-tail test is evaluated first. -/
theorem claim_C5_parametric_three_way (dataframe resampled_df real_diff_df : DF)
    (behavior_name : String) (high_tail low_tail : ℚ) (threshold : ℕ)
    (n : String) (m : List (String × String)) (v pHigh pLow : ℚ)
    (hn : n ∈ resampled_df.cols)
    (hfilt : ¬ (n ∈ dataframe.cols ∧ get_num_of_events dataframe n < threshold))
    (hok : classify_neurons_parametrically dataframe resampled_df real_diff_df
      behavior_name high_tail low_tail threshold = .ok m)
    (hv : real_diff_df.atLabel n "d" = .ok v)
    (hpH : np_percentile (resampled_df.col n) high_tail = .ok pHigh)
    (hpL : np_percentile (resampled_df.col n) low_tail = .ok pLow) :
    m.lookup n = some (if pHigh ≤ v then behavior_name
      else if v ≤ pLow then "Non-" ++ behavior_name else "Not-selective") ∧
    (m.lookup n = some behavior_name ∨
      m.lookup n = some ("Non-" ++ behavior_name) ∨
      m.lookup n = some "Not-selective") := by
  have hnone : (eventFilterPhase dataframe threshold).lookup n = none := by
    rw [eventFilterPhase_lookup, if_neg hfilt]
  unfold classify_neurons_parametrically at hok
  obtain ⟨lbl, hlbl, hlook⟩ := pFold_insert resampled_df real_diff_df
    behavior_name high_tail low_tail resampled_df.cols _ m n hn hnone hok
  rw [two_tailed_spec resampled_df real_diff_df n behavior_name high_tail
    low_tail v pHigh hv hn hpH, hpL] at hlbl
  simp only [Except.map] at hlbl
  by_cases h1 : pHigh ≤ v
  · rw [if_pos h1] at hlbl
    injection hlbl with hlbl
    subst hlbl
    exact ⟨by rw [if_pos h1]; exact hlook, Or.inl hlook⟩
  · rw [if_neg h1] at hlbl
    injection hlbl with hlbl
    subst hlbl
    refine ⟨by rw [if_neg h1]; exact hlook, ?_⟩
    by_cases h2 : v ≤ pLow
    · rw [if_pos h2] at hlook
      exact Or.inr (Or.inl hlook)
    · rw [if_neg h2] at hlook
      exact Or.inr (Or.inr hlook)

/-- Witness for C5: null column `[1, 2]` has 95th percentile `39/20` and 5th
percentile `21/20`; the observed value `5` is above the high tail, so the
unfiltered neuron "a" is labeled "B". -/
theorem claim_C5_witness :
    List.lookup "a" [("a", "B")] =
      some (if (39 : ℚ) / 20 ≤ 5 then "B"
        else if (5 : ℚ) ≤ 21 / 20 then "Non-" ++ "B" else "Not-selective") ∧
    (List.lookup "a" [("a", "B")] = some "B" ∨
      List.lookup "a" [("a", "B")] = some ("Non-" ++ "B") ∨
      List.lookup "a" [("a", "B")] = some "Not-selective") :=
  claim_C5_parametric_three_way ⟨["a"], [], [[1]]⟩ ⟨["a"], [], [[1], [2]]⟩
    ⟨["a"], ["d"], [[5]]⟩ "B" 95 5 0 "a" [("a", "B")] 5 (39 / 20) (21 / 20)
    (by simp) (by simp)
    (by norm_num [classify_neurons_parametrically, eventFilterPhase, phaseStep,
      get_num_of_events, insertIfAbsent, pStep, two_tailed_neuron_classification,
      DF.atLabel, DF.colE, DF.col, DF.colIdx, np_percentile, sortQ, insertQ,
      List.findIdx?, List.foldlM, List.lookup, Bind.bind, Except.bind,
      Pure.pure, Except.pure])
    (by norm_num [DF.atLabel, DF.colIdx, List.findIdx?])
    (by norm_num [np_percentile, sortQ, insertQ, DF.col, DF.colIdx,
      List.findIdx?])
    (by norm_num [np_percentile, sortQ, insertQ, DF.col, DF.colIdx,
      List.findIdx?])

/-- C6 counterexample: with activity block `[[1], [2]]`, a first-iteration
permutation that swaps the rows and a second-iteration permutation that is
the identity, the code's in-place worker feeds the *already swapped* table to
the second iteration (rows `[[2], [2]]` of outputs under a head-reading
difference function), while the claimed fresh-copy worker would feed the
original (rows `[[2], [1]]`): successive permutations do compound through the
shared table. -/
theorem claim_C6_counterexample :
    shuffle_worker (fun c => c.activityRows.getD 0 [])
      (fun k => if k = 0 then [1, 0] else [0, 1]) 2 ["n"]
      ⟨[[1], [2]], [[9], [9]]⟩ ≠
    shuffle_worker_fresh_copy (fun c => c.activityRows.getD 0 [])
      (fun k => if k = 0 then [1, 0] else [0, 1]) 2 ["n"]
      ⟨[[1], [2]], [[9], [9]]⟩ := by
  decide

/-- C6 (amended): the worker permutes the shared combined table in place, so
the table used at iteration `k` is the `k`-th drawn permutation applied to
the table used at iteration `k - 1`, not to the original; nevertheless the
behavior columns are held fixed at every iteration, and — provided each drawn
index list is a genuine permutation of the row indices — every table used is
still a row-permutation (equal multiset of rows) of the original activity
block. -/
theorem claim_C6_inplace_permutation_compounds (perms : ℕ → List ℕ)
    (combined : Combined)
    (hperm : ∀ k, (perms k).Perm (List.range combined.activityRows.length))
    (k : ℕ) :
    (workerTable perms combined k).behaviorRows = combined.behaviorRows ∧
    (workerTable perms combined k).activityRows =
      permuteRows (perms k) (iterTables perms combined.activityRows k) ∧
    (workerTable perms combined k).activityRows.Perm combined.activityRows :=
  ⟨rfl, rfl, iterTables_perm perms combined.activityRows hperm (k + 1)⟩

/-- Witness for C6 (amended): the compounding worker on a 2-row table with a
swap followed by the identity still uses a table whose rows are a
permutation of the original block, with the behavior columns untouched. -/
theorem claim_C6_witness :
    (workerTable (fun k => if k = 0 then [1, 0] else [0, 1])
      ⟨[[1], [2]], [[9], [9]]⟩ 1).behaviorRows = [[9], [9]] ∧
    (workerTable (fun k => if k = 0 then [1, 0] else [0, 1])
        ⟨[[1], [2]], [[9], [9]]⟩ 1).activityRows =
      permuteRows [0, 1]
        (iterTables (fun k => if k = 0 then [1, 0] else [0, 1]) [[1], [2]] 1) ∧
    (workerTable (fun k => if k = 0 then [1, 0] else [0, 1])
      ⟨[[1], [2]], [[9], [9]]⟩ 1).activityRows.Perm [[1], [2]] := by
  have h := claim_C6_inplace_permutation_compounds
    (fun k => if k = 0 then [1, 0] else [0, 1]) ⟨[[1], [2]], [[9], [9]]⟩
    (by intro k; by_cases hk : k = 0 <;> simp [hk] <;> decide) 1
  simpa using h

/-- C8 counterexample: on the constant null column `[3, 3, 3]` every
percentile equals `3`, `np.percentile` raises nothing, and the parametric
classification returns the ordinary label "B" — no `UndefinedStatistic`
error is raised for a constant-valued (degenerate) null column. -/
theorem claim_C8_counterexample :
    two_tailed_neuron_classification ⟨["a"], [], [[3], [3], [3]]⟩
      ⟨["a"], ["d"], [[3]]⟩ "a" "B" 95 5 = .ok "B" := by
  norm_num [two_tailed_neuron_classification, DF.atLabel, DF.colE, DF.colIdx,
    DF.col, np_percentile, sortQ, insertQ, List.findIdx?, Bind.bind,
    Except.bind, Pure.pure, Except.pure]

/-- C8 (amended): only the *empty* degenerate null column makes the
percentile computation raise an error (numpy raises on an empty array, and
the uncaught exception propagates to the caller); a *constant-valued*
non-empty null column raises nothing — every percentile in `[0, 100]` equals
the constant itself, a well-defined value (never NaN), and classification
proceeds normally with an ordinary label. -/
theorem claim_C8_degenerate_percentile (resampled_df real_d_df : DF)
    (neuron behavior_name : String) (high_tail low_tail : ℚ) (v c : ℚ)
    (hv : real_d_df.atLabel neuron "d" = .ok v)
    (hn : neuron ∈ resampled_df.cols) :
    (resampled_df.col neuron = [] →
      ∃ e, two_tailed_neuron_classification resampled_df real_d_df neuron
        behavior_name high_tail low_tail = .error e) ∧
    (resampled_df.col neuron ≠ [] → (∀ x ∈ resampled_df.col neuron, x = c) →
      0 ≤ high_tail → high_tail ≤ 100 → 0 ≤ low_tail → low_tail ≤ 100 →
      two_tailed_neuron_classification resampled_df real_d_df neuron
          behavior_name high_tail low_tail =
        .ok (if c ≤ v then behavior_name
          else if v ≤ c then "Non-" ++ behavior_name else "Not-selective")) := by
  constructor
  · intro hcol
    exact two_tailed_empty_col resampled_df real_d_df neuron behavior_name
      high_tail low_tail v hv hn hcol
  · intro hne hconst hh0 hh1 hl0 hl1
    have hH := np_percentile_const (resampled_df.col neuron) c high_tail hne
      hconst hh0 hh1
    have hL := np_percentile_const (resampled_df.col neuron) c low_tail hne
      hconst hl0 hl1
    rw [two_tailed_spec resampled_df real_d_df neuron behavior_name high_tail
      low_tail v c hv hn hH, hL]
    by_cases h1 : c ≤ v
    · rw [if_pos h1, if_pos h1]
    · rw [if_neg h1, if_neg h1]
      simp [Except.map]

/-- Witness for C8 (amended): on the constant column `[3, 3, 3]` with
observed value `3`, both percentile boundaries are `3` and the (inclusive)
high-tail test fires, so the classification succeeds with label "B". -/
theorem claim_C8_witness :
    two_tailed_neuron_classification ⟨["a"], [], [[3], [3], [3]]⟩
      ⟨["a"], ["d"], [[3]]⟩ "a" "B" 95 5 =
      .ok (if (3 : ℚ) ≤ 3 then "B"
        else if (3 : ℚ) ≤ 3 then "Non-" ++ "B" else "Not-selective") :=
  (claim_C8_degenerate_percentile ⟨["a"], [], [[3], [3], [3]]⟩
    ⟨["a"], ["d"], [[3]]⟩ "a" "B" 95 5 3 3
    (by norm_num [DF.atLabel, DF.colIdx, List.findIdx?]) (by simp)).2
    (by decide) (by decide)
    (by norm_num) (by norm_num) (by norm_num) (by norm_num)

/-- C9: for a fixed non-empty null table and a fixed neuron column, the
two-sided empirical p-value is monotonically non-increasing in the absolute
value of the observed statistic: `|v1| <= |v2|` implies `p(v2) <= p(v1)`. -/
theorem claim_C9_p_value_monotone (resampled_df obs1 obs2 : DF) (neuron : String)
    (v1 v2 p1 p2 : ℚ) (h0 : resampled_df.rows ≠ [])
    (h1 : neuron ∈ resampled_df.cols)
    (hv1 : obs1.values0 neuron = .ok v1) (hv2 : obs2.values0 neuron = .ok v2)
    (hle : |v1| ≤ |v2|)
    (hp1 : compute_two_side_p_val resampled_df obs1 neuron = .ok p1)
    (hp2 : compute_two_side_p_val resampled_df obs2 neuron = .ok p2) :
    p2 ≤ p1 := by
  rw [compute_two_side_p_val_spec resampled_df obs1 neuron v1 h0 h1 hv1] at hp1
  rw [compute_two_side_p_val_spec resampled_df obs2 neuron v2 h0 h1 hv2] at hp2
  injection hp1 with hp1
  injection hp2 with hp2
  subst hp1
  subst hp2
  have hsub : ((resampled_df.col neuron).filter
      (fun x => decide (|v2| ≤ |x|))).length ≤
      ((resampled_df.col neuron).filter
        (fun x => decide (|v1| ≤ |x|))).length := by
    apply List.Sublist.length_le
    apply List.monotone_filter_right
    intro a ha
    simp only [decide_eq_true_eq] at ha ⊢
    exact le_trans hle ha
  have hpos : (0 : ℚ) < (resampled_df.rows.length : ℚ) := by
    have hl : 0 < resampled_df.rows.length := List.length_pos.mpr h0
    exact_mod_cast hl
  have hq : ((((resampled_df.col neuron).filter
      (fun x => decide (|v2| ≤ |x|))).length : ℚ)) ≤
      (((resampled_df.col neuron).filter
        (fun x => decide (|v1| ≤ |x|))).length : ℚ) := by
    exact_mod_cast hsub
  exact div_le_div_of_nonneg_right hq hpos.le |>.trans_eq rfl

/-- Witness for C9: on the null column `[1, 2, -5]`, the observed value `2`
gives p-value `2/3` and the larger observed value `3` gives `1/3 <= 2/3`. -/
theorem claim_C9_witness : ((1 : ℚ) / 3) ≤ 2 / 3 :=
  claim_C9_p_value_monotone ⟨["a"], [], [[1], [2], [-5]]⟩ ⟨["a"], ["d"], [[2]]⟩
    ⟨["a"], ["d"], [[3]]⟩ "a" 2 3 (2 / 3) (1 / 3) (by simp) (by simp)
    (by norm_num [DF.values0, DF.colE, DF.col, DF.colIdx, List.findIdx?,
      Bind.bind, Except.bind])
    (by norm_num [DF.values0, DF.colE, DF.col, DF.colIdx, List.findIdx?,
      Bind.bind, Except.bind])
    (by norm_num)
    (by norm_num [compute_two_side_p_val, DF.values0, DF.colE, DF.col,
      DF.colIdx, List.findIdx?, List.filter, Bind.bind, Except.bind,
      Pure.pure, Except.pure])
    (by norm_num [compute_two_side_p_val, DF.values0, DF.colE, DF.col,
      DF.colIdx, List.findIdx?, List.filter, Bind.bind, Except.bind,
      Pure.pure, Except.pure])

/-- C10: the two strategies demand different shapes of the one-row observed
table: `two_tailed_neuron_classification` reads the observed value
label-based as `real_d_df[neuron]['d']` and fails with a `KeyError` on any
observed table whose single row is labeled otherwise (and so does
`classify_neurons_parametrically` for any non-filtered neuron), while
`compute_two_side_p_val` reads the first row positionally via `.values[0]`
and succeeds on the same input. -/
theorem claim_C10_observed_row_shape_divergence
    (dataframe resampled_df real_d_df : DF) (neuron behavior_name : String)
    (high_tail low_tail : ℚ) (threshold : ℕ)
    (h0 : resampled_df.rows ≠ []) (h1 : neuron ∈ resampled_df.cols)
    (h2 : neuron ∈ real_d_df.cols) (h3 : real_d_df.rows ≠ [])
    (h4 : "d" ∉ real_d_df.rowLabels)
    (h5 : ∀ c ∈ resampled_df.cols, c ∈ real_d_df.cols)
    (hfilt : ¬ (neuron ∈ dataframe.cols ∧
      get_num_of_events dataframe neuron < threshold)) :
    (∃ p, compute_two_side_p_val resampled_df real_d_df neuron = .ok p) ∧
    two_tailed_neuron_classification resampled_df real_d_df neuron
      behavior_name high_tail low_tail = .error (.keyError "d") ∧
    classify_neurons_parametrically dataframe resampled_df real_d_df
      behavior_name high_tail low_tail threshold = .error (.keyError "d") := by
  obtain ⟨v, hv⟩ := DF.values0_of_mem h2 h3
  refine ⟨⟨_, compute_two_side_p_val_spec resampled_df real_d_df neuron v h0
    h1 hv⟩, two_tailed_missing_d_label resampled_df real_d_df neuron
    behavior_name high_tail low_tail h2 h4, ?_⟩
  unfold classify_neurons_parametrically
  apply pFold_error
  · intro c hc _
    exact two_tailed_missing_d_label resampled_df real_d_df c behavior_name
      high_tail low_tail (h5 c hc) h4
  · refine ⟨neuron, h1, ?_⟩
    rw [eventFilterPhase_lookup, if_neg hfilt]

/-- Witness for C10: an observed row labeled "x" instead of "d" lets
`compute_two_side_p_val` succeed (p-value `1/2`) while the parametric path
fails with `KeyError` on "d". -/
theorem claim_C10_witness :
    compute_two_side_p_val ⟨["a"], [], [[1], [2]]⟩ ⟨["a"], ["x"], [[2]]⟩ "a" =
      .ok (1 / 2) ∧
    two_tailed_neuron_classification ⟨["a"], [], [[1], [2]]⟩
      ⟨["a"], ["x"], [[2]]⟩ "a" "B" 95 5 = .error (.keyError "d") ∧
    classify_neurons_parametrically ⟨["a"], [], [[1]]⟩ ⟨["a"], [], [[1], [2]]⟩
      ⟨["a"], ["x"], [[2]]⟩ "B" 95 5 0 = .error (.keyError "d") := by
  have h := claim_C10_observed_row_shape_divergence ⟨["a"], [], [[1]]⟩
    ⟨["a"], [], [[1], [2]]⟩ ⟨["a"], ["x"], [[2]]⟩ "a" "B" 95 5 0
    (by simp) (by simp) (by simp) (by simp) (by simp)
    (by intro c hc; simpa using hc) (by simp)
  refine ⟨?_, h.2.1, h.2.2⟩
  norm_num [compute_two_side_p_val, DF.values0, DF.colE, DF.col, DF.colIdx,
    List.findIdx?, List.filter, Bind.bind, Except.bind, Pure.pure, Except.pure]

end Resampling
